import Mathlib

set_option maxRecDepth 4000

/-!
Verification of the SIM-card reader's codec and protocol layers against a
shallow embedding of `src/main.py`.  Byte buffers are `List Nat` (each element
a value in 0..255), strings built by the Python code are `String`/`List Char`,
and the card transport is a response function from APDU frames to
`(data, sw1, sw2)` triples.
-/

/-- Decimal rendering of a nibble value, the embedding of Python `str(n)`:
one character for 0..9, two characters for 10..15. -/
def nibbleStr (n : Nat) : List Char := (Nat.repr n).toList

/-- Embedding of `SIMReader.decode_iccid`: each byte contributes its low
nibble then its high nibble, each rendered in decimal and dropped when it
equals the 0xF filler. -/
def iccidChars : List Nat → List Char
  | [] => []
  | b :: rest =>
      (if b &&& 0xF ≠ 0xF then nibbleStr (b &&& 0xF) else [])
        ++ ((if (b >>> 4) &&& 0xF ≠ 0xF then nibbleStr ((b >>> 4) &&& 0xF) else [])
        ++ iccidChars rest)

/-- Embedding of `SIMReader.decode_iccid` (the string it returns). -/
def decode_iccid (data : List Nat) : String := String.mk (iccidChars data)

/-- Modelled from the spec: the repository has no semi-octet re-encoder (§8 only
states the round-trip property), so this encoder re-applies the spec's nibble
order and filler rule: each pair of decimal-digit characters packs into one
byte, first digit in the low nibble, and a trailing odd digit is padded with
the 0xF filler in the high nibble. -/
def encodeSemiOctets : List Char → List Nat
  | [] => []
  | [d] => [0xF * 16 + (d.toNat - 48)]
  | d1 :: d2 :: rest => ((d2.toNat - 48) * 16 + (d1.toNat - 48)) :: encodeSemiOctets rest

/-- Contribution of byte `i` in `SIMReader.decode_imsi`: the first payload byte
(index 1) yields only its high nibble, later bytes yield low then high nibble,
each decimal-rendered and dropped when 0xF; bytes beyond the buffer yield
nothing (the `if i < len(data)` guard). -/
def imsiByteChars (data : List Nat) (i : Nat) : List Char :=
  if i < data.length then
    let byte := data.getD i 0
    if i = 1 then
      (if (byte >>> 4) &&& 0xF ≠ 0xF then nibbleStr ((byte >>> 4) &&& 0xF) else [])
    else
      (if byte &&& 0xF ≠ 0xF then nibbleStr (byte &&& 0xF) else [])
        ++ (if (byte >>> 4) &&& 0xF ≠ 0xF then nibbleStr ((byte >>> 4) &&& 0xF) else [])
  else []

/-- Characters produced by the `for i in range(1, length + 1)` loop of
`SIMReader.decode_imsi` when `data[0] = count`. -/
def imsiChars (data : List Nat) (count : Nat) : List Char :=
  (List.range' 1 count).foldl (fun acc i => acc ++ imsiByteChars data i) []

/-- Embedding of `SIMReader.decode_imsi`: `None` on buffers shorter than 9
bytes, otherwise the digits gathered by the loop driven by `data[0]`. -/
def decode_imsi (data : List Nat) : Option String :=
  if data.length < 9 then none
  else some (String.mk (imsiChars data (data.headD 0)))

/-- Entry produced for one 3-byte group by `SIMReader.decode_plmn`: all-0xFF
groups are skipped, nibbles are rendered in decimal by Python f-strings, and
the entry is appended whenever the rendered country code differs from the
string "FFF". -/
def plmnEntry (b1 b2 b3 : Nat) : List String :=
  if b1 = 0xFF ∧ b2 = 0xFF ∧ b3 = 0xFF then []
  else
    let mcc := Nat.repr (b1 &&& 0xF) ++ Nat.repr ((b1 >>> 4) &&& 0xF) ++ Nat.repr (b2 &&& 0xF)
    let d1 := b3 &&& 0xF
    let d2 := (b3 >>> 4) &&& 0xF
    let d3 := (b2 >>> 4) &&& 0xF
    let mnc := if d3 = 0xF then Nat.repr d1 ++ Nat.repr d2
               else Nat.repr d1 ++ Nat.repr d2 ++ Nat.repr d3
    if mcc ≠ "FFF" then [mcc ++ "-" ++ mnc] else []

/-- Embedding of `SIMReader.decode_plmn`: the 3-byte groups are processed in
order and the loop breaks as soon as fewer than 3 bytes remain. -/
def decode_plmn : List Nat → List String
  | b1 :: b2 :: b3 :: rest => plmnEntry b1 b2 b3 ++ decode_plmn rest
  | _ => []

/-- Character emitted for one nibble by `SIMReader.decode_bcd_number`, the
embedding of `digit_map.get(n, str(n))`. -/
def bcdDigitChars (n : Nat) : List Char :=
  if n = 0xA then ['*'] else if n = 0xB then ['#'] else if n = 0xC then ['p']
  else if n = 0xD then ['w'] else if n = 0xE then ['+'] else nibbleStr n

/-- Embedding of `SIMReader.decode_bcd_number`: a length byte, a
type-of-number byte (0x91 prefixes "+ " when `includeTon`), then packed
digits, low nibble before high nibble, the 0xF filler dropped; an empty
result string becomes `None`. -/
def decode_bcd_number (data : List Nat) (includeTon : Bool) : Option String :=
  if data.length < 2 then none
  else
    let bcdLen := data.getD 0 0
    if bcdLen = 0xFF ∨ bcdLen = 0 then none
    else
      let tonNpi := data.getD 1 0
      let numberBytes := (data.drop 2).take (bcdLen - 1)
      let start : List Char := if includeTon ∧ tonNpi = 0x91 then ['+'] else []
      let digits := numberBytes.foldl (fun acc b =>
        acc ++ (if b &&& 0xF ≠ 0xF then bcdDigitChars (b &&& 0xF) else [])
            ++ (if (b >>> 4) &&& 0xF ≠ 0xF then bcdDigitChars ((b >>> 4) &&& 0xF) else [])) start
      if digits = [] then none else some (String.mk digits)

/-- Character table of `SIMReader.decode_gsm7` (the `gsm7_basic` string),
the 128-entry GSM default alphabet with the escape position rendered as a
space, exactly as the source writes it. -/
def gsm7Basic : List Char :=
  ['@', '£', '$', '¥', 'è', 'é', 'ù', 'ì', 'ò', 'Ç',
   '\n', 'Ø', 'ø', '\r', 'Å', 'å',
   'Δ', '_', 'Φ', 'Γ', 'Λ', 'Ω', 'Π', 'Ψ', 'Σ', 'Θ', 'Ξ', ' ', 'Æ', 'æ', 'ß', 'É',
   ' ', '!', Char.ofNat 34, '#', '¤', '%', '&', Char.ofNat 39, '(', ')', '*', '+', ',', '-', '.', '/',
   '0', '1', '2', '3', '4', '5', '6', '7', '8', '9', ':', ';', '<', '=', '>', '?',
   '¡', 'A', 'B', 'C', 'D', 'E', 'F', 'G', 'H', 'I', 'J', 'K', 'L', 'M',
   'N', 'O', 'P', 'Q', 'R', 'S', 'T', 'U', 'V', 'W', 'X', 'Y', 'Z', 'Ä', 'Ö', 'Ñ', 'Ü', '§',
   '¿', 'a', 'b', 'c', 'd', 'e', 'f', 'g', 'h', 'i', 'j', 'k', 'l', 'm',
   'n', 'o', 'p', 'q', 'r', 's', 't', 'u', 'v', 'w', 'x', 'y', 'z', 'ä', 'ö', 'ñ', 'ü', 'à']

/-- One step per requested character of the `SIMReader.decode_gsm7` loop:
7 bits are taken from the current byte at the running bit offset, combined
with bits of the next byte when the offset exceeds 1, and looked up in the
table; the loop breaks when the byte position runs off the data. -/
def gsm7Loop (data : List Nat) : Nat → Nat → Nat → List Char → List Char
  | 0, _, _, acc => acc
  | n + 1, bytePos, bitPos, acc =>
    if bytePos < data.length then
      let cv0 := (data.getD bytePos 0 >>> bitPos) &&& 0x7F
      let cv := if 1 < bitPos ∧ bytePos + 1 < data.length
        then cv0 ||| ((data.getD (bytePos + 1) 0 <<< (8 - bitPos)) &&& 0x7F)
        else cv0
      let bp := bitPos + 7
      let bytePos2 := if 8 ≤ bp then bytePos + 1 else bytePos
      let bitPos2 := if 8 ≤ bp then bp - 8 else bp
      let c := if cv < gsm7Basic.length then gsm7Basic.getD cv '?' else '?'
      gsm7Loop data n bytePos2 bitPos2 (acc ++ [c])
    else acc

/-- Embedding of `SIMReader.decode_gsm7`: unpack `numChars` 7-bit characters
from the packed bit stream. -/
def decode_gsm7 (data : List Nat) (numChars : Nat) : String :=
  String.mk (gsm7Loop data numChars 0 0 [])

/-- Modelled from the spec: the repository classifies status words by scattered
`sw1`/`sw2` comparisons and has no single classification function, so this is
§4.1 as written: (0x90,0x00) success, SW1 0x9F or 0x61 more-data with SW2 the
length, (0x6A,0x83) not-found, anything else an error carrying both bytes. -/
inductive StatusOutcome where
  | Success : StatusOutcome
  | MoreDataAvailable : Nat → StatusOutcome
  | NotFound : StatusOutcome
  | OtherError : Nat → Nat → StatusOutcome
deriving DecidableEq

/-- Modelled from the spec: §4.1's deterministic classification of a status
word pair. -/
def classifyOutcome (sw1 sw2 : Nat) : StatusOutcome :=
  if sw1 = 0x90 ∧ sw2 = 0x00 then .Success
  else if sw1 = 0x9F ∨ sw1 = 0x61 then .MoreDataAvailable sw2
  else if sw1 = 0x6A ∧ sw2 = 0x83 then .NotFound
  else .OtherError sw1 sw2

/-- Embedding of the `sw1 in [0x90, 0x9F, 0x91]` test `SIMReader.read_all`
applies after each plain-file SELECT before reading. -/
def swOkSelect (sw1 : Nat) : Bool := ([0x90, 0x9F, 0x91] : List Nat).contains sw1

/-- Embedding of the `sw1 in [0x90, 0x9F, 0x91, 0x61]` test
`SIMReader.read_all` applies after record-file SELECTs (ADN, FDN, SDN, LND,
SMS) before walking records. -/
def swOkSelectRecord (sw1 : Nat) : Bool :=
  ([0x90, 0x9F, 0x91, 0x61] : List Nat).contains sw1

/-- Transport model: the card side of `SIMReader.send_apdu` as a response
function from the transmitted APDU to `(data, sw1, sw2)`. -/
structure Card where
  respond : List Nat → List Nat × Nat × Nat

/-- SELECT frame built by `SIMReader.select_file_gsm` (class 0xA0). -/
def gsmSelectApdu (fileId : Nat) : List Nat :=
  [0xA0, 0xA4, 0x00, 0x00, 0x02, (fileId >>> 8) &&& 0xFF, fileId &&& 0xFF]

/-- GET RESPONSE frame of `SIMReader.select_file_gsm` (class 0xA0, length n). -/
def gsmGetResponseApdu (n : Nat) : List Nat := [0xA0, 0xC0, 0x00, 0x00, n]

/-- SELECT frame built by `SIMReader.select_file_usim` (class 0x00, P2 0x04). -/
def usimSelectApdu (fileId : Nat) : List Nat :=
  [0x00, 0xA4, 0x00, 0x04, 0x02, (fileId >>> 8) &&& 0xFF, fileId &&& 0xFF]

/-- GET RESPONSE frame of `SIMReader.select_file_usim` (class 0x00, length n). -/
def usimGetResponseApdu (n : Nat) : List Nat := [0x00, 0xC0, 0x00, 0x00, n]

/-- Embedding of `SIMReader.select_file_gsm`: returns the list of APDUs it
transmits together with the final `(data, sw1, sw2)` result; a GET RESPONSE
of length SW2 follows exactly when the SELECT answers SW1 = 0x9F. -/
def select_file_gsm (card : Card) (fileId : Nat) :
    List (List Nat) × (List Nat × Nat × Nat) :=
  let r := card.respond (gsmSelectApdu fileId)
  if r.2.1 = 0x9F then
    ([gsmSelectApdu fileId, gsmGetResponseApdu r.2.2],
      card.respond (gsmGetResponseApdu r.2.2))
  else ([gsmSelectApdu fileId], r)

/-- Embedding of `SIMReader.select_file_usim`: a GET RESPONSE of length SW2
follows exactly when the SELECT answers SW1 = 0x61. -/
def select_file_usim (card : Card) (fileId : Nat) :
    List (List Nat) × (List Nat × Nat × Nat) :=
  let r := card.respond (usimSelectApdu fileId)
  if r.2.1 = 0x61 then
    ([usimSelectApdu fileId, usimGetResponseApdu r.2.2],
      card.respond (usimGetResponseApdu r.2.2))
  else ([usimSelectApdu fileId], r)

/-- Test for a GET RESPONSE frame: instruction byte (index 1) 0xC0. -/
def isGetRespApdu (apdu : List Nat) : Bool := apdu.getD 1 0 = 0xC0

/-- Record-walking loop of `SIMReader.read_all` (the ADN/FDN/SDN/LND/SMS
pattern), reading records from index `start` while fuel remains: a Success
with nonempty data is produced unless the record is entirely 0xFF sentinel
bytes; SW 0x6A 0x83 breaks the loop; every other outcome falls through and
the loop continues with the next index.  Returns (attempted indices,
produced (index, record) pairs). -/
def recordWalkAux (readRec : Nat → List Nat × Nat × Nat) :
    Nat → Nat → List Nat × List (Nat × List Nat)
  | 0, _ => ([], [])
  | fuel + 1, start =>
    let r := readRec start
    if r.2.1 = 0x90 ∧ r.1 ≠ [] then
      let rest := recordWalkAux readRec fuel (start + 1)
      if r.1.all (fun b => b = 0xFF) then (start :: rest.1, rest.2)
      else (start :: rest.1, (start, r.1) :: rest.2)
    else if r.2.1 = 0x6A ∧ r.2.2 = 0x83 then ([start], [])
    else
      let rest := recordWalkAux readRec fuel (start + 1)
      (start :: rest.1, rest.2)

/-- Record walk over indices `1 .. min (numRecords + 1) ceiling - 1`, the
embedding of `for rec in range(1, min(num_records + 1, ceiling))`. -/
def recordWalk (readRec : Nat → List Nat × Nat × Nat) (numRecords ceiling : Nat) :
    List Nat × List (Nat × List Nat) :=
  recordWalkAux readRec (min (numRecords + 1) ceiling - 1) 1

/-- Python exception raised by an out-of-range list subscript. -/
inductive PyErr where
  | indexError : PyErr
deriving DecidableEq

/-- Embedding of the Python subscript `data[i]`: the value, or IndexError
when `i` is out of range. -/
def idx (data : List Nat) (i : Nat) : Except PyErr Nat :=
  match data.get? i with
  | some v => .ok v
  | none => .error .indexError

/-- External text decoders `SIMReader.decode_sms` delegates to: Python's
`bytes.decode("utf-16-be", errors="replace")` and `toHexString`, total
library functions outside this repository, kept abstract. -/
structure ExtDec where
  ucs2 : List Nat → String
  hexStr : List Nat → String

/-- Decoded message record built by `SIMReader.decode_sms` (the result dict;
keys the code may leave out are `none`). -/
structure SmsResult where
  status : String
  smsc : Option String := none
  sender : Option String := none
  recipient : Option String := none
  timestamp : Option String := none
  message : Option String := none
deriving DecidableEq

/-- Status text of `SIMReader.decode_sms` (`status_map.get(status, ...)`). -/
def statusName (status : Nat) : String :=
  if status = 0x00 then "Free"
  else if status = 0x01 then "Received unread"
  else if status = 0x03 then "Received read"
  else if status = 0x05 then "Sent unsent"
  else if status = 0x07 then "Sent"
  else "Unknown (" ++ Nat.repr status ++ ")"

/-- Python's `f"{n:02d}"`: zero-padded to at least two digits. -/
def pad2 (n : Nat) : String := if n < 10 then "0" ++ Nat.repr n else Nat.repr n

/-- Service-centre timestamp string of `SIMReader.decode_sms`: six
nibble-swapped BCD pairs rendered as `20YY-MM-DD HH:MM:SS`. -/
def tsString (scts : List Nat) : String :=
  let year := ((scts.getD 0 0) >>> 4) * 10 + ((scts.getD 0 0) &&& 0xF)
  let month := ((scts.getD 1 0) >>> 4) * 10 + ((scts.getD 1 0) &&& 0xF)
  let day := ((scts.getD 2 0) >>> 4) * 10 + ((scts.getD 2 0) &&& 0xF)
  let hour := ((scts.getD 3 0) >>> 4) * 10 + ((scts.getD 3 0) &&& 0xF)
  let minute := ((scts.getD 4 0) >>> 4) * 10 + ((scts.getD 4 0) &&& 0xF)
  let second := ((scts.getD 5 0) >>> 4) * 10 + ((scts.getD 5 0) &&& 0xF)
  "20" ++ pad2 year ++ "-" ++ pad2 month ++ "-" ++ pad2 day ++ " "
    ++ pad2 hour ++ ":" ++ pad2 minute ++ ":" ++ pad2 second

/-- User-data text selection of `SIMReader.decode_sms` by DCS bits 3..2:
0x08 wide characters, 0x00 packed 7-bit, otherwise an opaque hex dump. -/
def decodeMessage (ext : ExtDec) (dcs : Nat) (ud : List Nat) (udl : Nat) : String :=
  if dcs &&& 0x0C = 0x08 then ext.ucs2 (ud.take udl)
  else if dcs &&& 0x0C = 0x00 then decode_gsm7 ud udl
  else "[Data: " ++ ext.hexStr (ud.take udl) ++ "]"

/-- Embedding of `SIMReader.decode_sms`, with every Python subscript that can
raise IndexError modelled by `idx`; slices clamp as in Python.  Returns
`none` for an empty slot, a result record otherwise, or the raised
exception. -/
def decode_sms (ext : ExtDec) (data : List Nat) :
    Except PyErr (Option SmsResult) := do
  if data.length < 1 then return none
  let status ← idx data 0
  if status = 0x00 ∨ status = 0xFF then return none
  let smscLen ← idx data 1
  let smsc := if 0 < smscLen ∧ smscLen ≠ 0xFF then
      decode_bcd_number ([smscLen] ++ (data.drop 2).take smscLen) true
    else none
  let pduStart := if 0 < smscLen ∧ smscLen ≠ 0xFF then 2 + smscLen else 2
  if data.length ≤ pduStart then return some { status := statusName status }
  let pdu := data.drop pduStart
  if pdu.length < 2 then return some { status := statusName status }
  let firstOctet ← idx pdu 0
  let mti := firstOctet &&& 0x03
  let base : SmsResult := { status := statusName status, smsc := smsc }
  if mti = 0x00 then
    if pdu.length < 3 then return some base
    let senderLen ← idx pdu 1
    let senderType ← if 2 < pdu.length then idx pdu 2 else pure 0x81
    let sbl := (senderLen + 1) / 2
    let sender := decode_bcd_number ([sbl + 1, senderType] ++ (pdu.drop 3).take sbl) true
    let r1 := { base with sender := sender }
    let off := 3 + sbl
    if off + 7 < pdu.length then
      let _pid ← idx pdu off
      let dcs ← idx pdu (off + 1)
      let scts := (pdu.drop (off + 2)).take 7
      let r2 := if scts.length = 7 then { r1 with timestamp := some (tsString scts) } else r1
      let udOff := off + 9
      if udOff < pdu.length then
        let udl ← idx pdu udOff
        let ud := pdu.drop (udOff + 1)
        return some { r2 with message := some (decodeMessage ext dcs ud udl) }
      else return some r2
    else return some r1
  else if mti = 0x01 then
    if pdu.length < 3 then return some base
    let _mr ← idx pdu 1
    let destLen ← idx pdu 2
    let destType ← if 3 < pdu.length then idx pdu 3 else pure 0x81
    let dbl := (destLen + 1) / 2
    let dest := decode_bcd_number ([dbl + 1, destType] ++ (pdu.drop 4).take dbl) true
    let r1 := { base with recipient := dest }
    let off := 4 + dbl
    if off + 2 < pdu.length then
      let _pid ← idx pdu off
      let dcs ← idx pdu (off + 1)
      let vpf := (firstOctet >>> 3) &&& 0x03
      let off2 := if vpf = 0x02 then off + 1 else if vpf = 0x03 then off + 7 else off
      let udOff := off2 + 2
      if udOff < pdu.length then
        let udl ← idx pdu udOff
        let ud := pdu.drop (udOff + 1)
        return some { r1 with message := some (decodeMessage ext dcs ud udl) }
      else return some r1
    else return some r1
  else return some base

/-- Card that answers every APDU with SW1 = 0x61 (more data available in the
UICC convention), used against the legacy select path. -/
def cx61card : Card := ⟨fun _ => ([], 0x61, 0x05)⟩

/-- Card whose legacy SELECT answers SW1 = 0x9F (length 0x0F) and whose USIM
SELECT answers SW1 = 0x61 (length 0x10); GET RESPONSE returns a descriptor
with SW 0x90 0x00. -/
def cardW : Card := ⟨fun a =>
  if a.getD 0 0 = 0xA0 ∧ a.getD 1 0 = 0xA4 then ([], 0x9F, 0x0F)
  else if a.getD 0 0 = 0x00 ∧ a.getD 1 0 = 0xA4 then ([], 0x61, 0x10)
  else ([0x62, 0x00], 0x90, 0x00)⟩

/-- Record reads where index 1 fails with SW 0x98 0x04 (an outcome that is
neither Success nor NotFound), index 2 succeeds with data, and indices from 3
answer record-not-found. -/
def c4re : Nat → List Nat × Nat × Nat := fun k =>
  if k = 1 then ([0x11], 0x98, 0x04)
  else if k = 2 then ([0x22], 0x90, 0x00)
  else ([], 0x6A, 0x83)

/-- Record reads realising the spec's §8 walker scenario over geometry
{recordLength = 4, recordCount = 10}: indices 1..3 return distinct real data
with Success, index 4 an all-0xFF record with Success, index 5 NotFound;
indices 6 and up would return data, so any read there would show up. -/
def c5re : Nat → List Nat × Nat × Nat := fun k =>
  if k ≤ 3 then ([k, k, k, k], 0x90, 0x00)
  else if k = 4 then ([0xFF, 0xFF, 0xFF, 0xFF], 0x90, 0x00)
  else if k = 5 then ([], 0x6A, 0x83)
  else ([0xAA, 0xBB, 0xCC, 0xDD], 0x90, 0x00)

/-- C1: the short-message decoder is not total.  On the buffer `[0x01]` —
length 1, first byte neither 0x00 nor 0xFF — `decode_sms` evaluates the
unguarded subscript `data[1]` for the service-centre-address length and
raises IndexError, for any external text decoders; buffers whose first byte
is the 0x00/0xFF empty-slot marker return absence as the claim describes. -/
theorem sms_short_buffer_raises_c1 (ext : ExtDec) :
    decode_sms ext [0x01] = Except.error PyErr.indexError
      ∧ decode_sms ext [0x00] = Except.ok none
      ∧ decode_sms ext [0xFF] = Except.ok none :=
  ⟨rfl, rfl, rfl⟩

/-- C2 counterexample: the pair (0x91, 0x00) classifies as OtherError, yet the
`sw1 in [0x90, 0x9F, 0x91]` checks of `read_all` treat SW1 = 0x91 as success
when deciding whether to proceed with a read. -/
theorem classify_sw91_cx :
    classifyOutcome 0x91 0x00 = StatusOutcome.OtherError 0x91 0x00
      ∧ swOkSelect 0x91 = true ∧ swOkSelectRecord 0x91 = true := by decide

/-- C2 as amended: the §4.1 classification maps (0x90,0x00) to Success,
SW1 0x9F or 0x61 to MoreDataAvailable(SW2), (0x6A,0x83) to NotFound and
exactly the remaining pairs to OtherError with both bytes; but the callers of
`read_all` decide whether to proceed with a read from SW1 alone, accepting
SW1 in {0x90, 0x9F, 0x91} after plain SELECTs and additionally 0x61 after
record-file SELECTs, so OtherError pairs with SW1 = 0x91 are treated as
success. -/
theorem classify_amended_c2 :
    (classifyOutcome 0x90 0x00 = StatusOutcome.Success
      ∧ classifyOutcome 0x6A 0x83 = StatusOutcome.NotFound)
    ∧ (∀ x : Nat, classifyOutcome 0x9F x = StatusOutcome.MoreDataAvailable x
        ∧ classifyOutcome 0x61 x = StatusOutcome.MoreDataAvailable x)
    ∧ (∀ sw1 sw2 : Nat, classifyOutcome sw1 sw2 = StatusOutcome.OtherError sw1 sw2 ↔
        (¬(sw1 = 0x90 ∧ sw2 = 0x00) ∧ sw1 ≠ 0x9F ∧ sw1 ≠ 0x61 ∧ ¬(sw1 = 0x6A ∧ sw2 = 0x83)))
    ∧ (∀ sw1 : Nat, swOkSelect sw1 = true ↔ (sw1 = 0x90 ∨ sw1 = 0x9F ∨ sw1 = 0x91))
    ∧ (∀ sw1 : Nat, swOkSelectRecord sw1 = true ↔
        (sw1 = 0x90 ∨ sw1 = 0x9F ∨ sw1 = 0x91 ∨ sw1 = 0x61)) := by
  refine ⟨⟨rfl, rfl⟩, fun x => ⟨rfl, rfl⟩, ?_, ?_, ?_⟩
  · intro sw1 sw2
    unfold classifyOutcome
    split_ifs with h1 h2 h3
    · simp only [reduceCtorEq, false_iff]
      tauto
    · constructor
      · intro h
        exact absurd h (by simp)
      · tauto
    · simp only [reduceCtorEq, false_iff]
      tauto
    · simp only [true_iff]
      tauto
  · intro sw1
    simp [swOkSelect, List.contains]
  · intro sw1
    simp [swOkSelectRecord, List.contains]

/-- C3 counterexample: a legacy-dialect SELECT answered with SW1 = 0x61 —
MoreDataAvailable under the claimed classification — triggers no GET RESPONSE
at all: the only APDU sent is the SELECT itself and the 0x61 response is
returned as the final result. -/
theorem select_gsm61_cx :
    (select_file_gsm cx61card 0x6F07).1 = [gsmSelectApdu 0x6F07]
      ∧ (select_file_gsm cx61card 0x6F07).1.filter (fun a => isGetRespApdu a) = []
      ∧ (select_file_gsm cx61card 0x6F07).2 = ([], 0x61, 0x05)
      ∧ classifyOutcome 0x61 0x05 = StatusOutcome.MoreDataAvailable 5 := by decide

/-- C3 as amended: under the Legacy dialect exactly an SW1 = 0x9F answer is
followed by one GET RESPONSE (class 0xA0) requesting exactly SW2 bytes, whose
response becomes the final result of the selection; under the UsimADF dialect
the same holds for SW1 = 0x61 (class 0x00); in every other case, including a
legacy select answered 0x61 or a USIM select answered 0x9F, no GET RESPONSE
is issued and the raw response is final. -/
theorem select_getresponse_amended (card : Card) (fileId : Nat)
    (d du : List Nat) (s1 s2 t1 t2 : Nat)
    (hg : card.respond (gsmSelectApdu fileId) = (d, s1, s2))
    (hu : card.respond (usimSelectApdu fileId) = (du, t1, t2)) :
    ((select_file_gsm card fileId).1.filter (fun a => isGetRespApdu a) =
        (if s1 = 0x9F then [gsmGetResponseApdu s2] else [])
      ∧ (select_file_gsm card fileId).2 =
        (if s1 = 0x9F then card.respond (gsmGetResponseApdu s2) else (d, s1, s2)))
    ∧ ((select_file_usim card fileId).1.filter (fun a => isGetRespApdu a) =
        (if t1 = 0x61 then [usimGetResponseApdu t2] else [])
      ∧ (select_file_usim card fileId).2 =
        (if t1 = 0x61 then card.respond (usimGetResponseApdu t2) else (du, t1, t2))) := by
  constructor
  · rw [select_file_gsm, hg]
    by_cases h : s1 = 0x9F
    · rw [if_pos h]
      exact ⟨by simp [isGetRespApdu, gsmSelectApdu, gsmGetResponseApdu, List.filter, h],
        by simp [h]⟩
    · rw [if_neg h]
      exact ⟨by simp [isGetRespApdu, gsmSelectApdu, List.filter, h], by simp [h]⟩
  · rw [select_file_usim, hu]
    by_cases h : t1 = 0x61
    · rw [if_pos h]
      exact ⟨by simp [isGetRespApdu, usimSelectApdu, usimGetResponseApdu, List.filter, h],
        by simp [h]⟩
    · rw [if_neg h]
      exact ⟨by simp [isGetRespApdu, usimSelectApdu, List.filter, h], by simp [h]⟩

/-- Witness for C3: on `cardW` the legacy SELECT of 0x6F3A is answered
0x9F/0x0F and is followed by exactly one class-0xA0 GET RESPONSE of 0x0F
bytes whose answer is the final result, and the USIM SELECT is answered
0x61/0x10 with the class-0x00 analogue. -/
theorem select_getresponse_witness :
    (cardW.respond (gsmSelectApdu 0x6F3A) = ([], 0x9F, 0x0F)
      ∧ cardW.respond (usimSelectApdu 0x6F3A) = ([], 0x61, 0x10))
    ∧ ((select_file_gsm cardW 0x6F3A).1.filter (fun a => isGetRespApdu a)
          = [gsmGetResponseApdu 0x0F]
      ∧ (select_file_gsm cardW 0x6F3A).2 = cardW.respond (gsmGetResponseApdu 0x0F))
    ∧ ((select_file_usim cardW 0x6F3A).1.filter (fun a => isGetRespApdu a)
          = [usimGetResponseApdu 0x10]
      ∧ (select_file_usim cardW 0x6F3A).2 = cardW.respond (usimGetResponseApdu 0x10)) := by
  have h := select_getresponse_amended cardW 0x6F3A [] [] 0x9F 0x0F 0x61 0x10 rfl rfl
  exact ⟨⟨rfl, rfl⟩, ⟨by simpa using h.1.1, by simpa using h.1.2⟩,
    ⟨by simpa using h.2.1, by simpa using h.2.2⟩⟩

/-- C4 counterexample: with reads `c4re`, index 1 fails with SW 0x98 0x04 —
neither Success nor NotFound — yet the walk does not terminate there: indices
2 and 3 are still attempted (and index 2 is produced). -/
theorem walk_error_continues_cx :
    recordWalk c4re 3 251 = ([1, 2, 3], [(2, [0x22])])
      ∧ (c4re 1).2.1 = 0x98 ∧ (c4re 1).2.2 = 0x04
      ∧ 2 ∈ (recordWalk c4re 3 251).1 := by decide

/-- Helper for the walker characterisation: prepending an attempted index that
is not a NotFound outcome extends the membership description by one. -/
theorem memStepIff (P : Nat → Prop) (start j m : Nat) (tail : List Nat)
    (hnf : ¬ P start)
    (htail : j ∈ tail ↔ start + 1 ≤ j ∧ j < start + 1 + m ∧
      ∀ k, start + 1 ≤ k → k < j → ¬ P k) :
    (j ∈ start :: tail ↔ start ≤ j ∧ j < start + (m + 1) ∧
      ∀ k, start ≤ k → k < j → ¬ P k) := by
  rw [List.mem_cons, htail]
  constructor
  · rintro (rfl | ⟨h1, h2, h3⟩)
    · exact ⟨Nat.le_refl _, by omega, fun k hk1 hk2 => (by omega : False).elim⟩
    · refine ⟨by omega, by omega, fun k hk1 hk2 => ?_⟩
      rcases Nat.eq_or_lt_of_le hk1 with heq | hlt
      · exact heq ▸ hnf
      · exact h3 k hlt hk2
  · rintro ⟨h1, h2, h3⟩
    rcases Nat.eq_or_lt_of_le h1 with heq | hlt
    · exact Or.inl heq.symm
    · exact Or.inr ⟨by omega, by omega, fun k hk1 hk2 => h3 k (by omega) hk2⟩

/-- Characterisation of the indices a record walk attempts: exactly those in
the fuel window whose strictly earlier indices all avoided the NotFound
status 0x6A 0x83 — any other error outcome does not cut the walk short. -/
theorem recordWalkAux_mem (readRec : Nat → List Nat × Nat × Nat) :
    ∀ (fuel start j : Nat),
      (j ∈ (recordWalkAux readRec fuel start).1 ↔
        start ≤ j ∧ j < start + fuel ∧
          ∀ k, start ≤ k → k < j →
            ¬((readRec k).2.1 = 0x6A ∧ (readRec k).2.2 = 0x83)) := by
  intro fuel
  induction fuel with
  | zero =>
    intro start j
    simp only [recordWalkAux, List.not_mem_nil, false_iff]
    omega
  | succ m ih =>
    intro start j
    simp only [recordWalkAux]
    by_cases h1 : (readRec start).2.1 = 0x90 ∧ (readRec start).1 ≠ []
    · rw [if_pos h1]
      have hnf : ¬((readRec start).2.1 = 0x6A ∧ (readRec start).2.2 = 0x83) := by
        rintro ⟨ha, _⟩
        rw [h1.1] at ha
        omega
      by_cases hff : (readRec start).1.all (fun b => b = 0xFF)
      · rw [if_pos hff]
        exact memStepIff _ start j m _ hnf (ih (start + 1) j)
      · rw [if_neg hff]
        exact memStepIff _ start j m _ hnf (ih (start + 1) j)
    · rw [if_neg h1]
      by_cases h2 : (readRec start).2.1 = 0x6A ∧ (readRec start).2.2 = 0x83
      · rw [if_pos h2]
        simp only [List.mem_singleton]
        constructor
        · rintro rfl
          exact ⟨Nat.le_refl _, by omega, fun k hk1 hk2 => (by omega : False).elim⟩
        · rintro ⟨ha, hb, hc⟩
          rcases Nat.eq_or_lt_of_le ha with heq | hlt
          · exact heq.symm
          · exact absurd h2 (hc start (Nat.le_refl _) hlt)
      · rw [if_neg h2]
        exact memStepIff _ start j m _ h2 (ih (start + 1) j)

/-- C4 as amended: during a record walk only the NotFound status 0x6A 0x83
terminates the sequence of attempted indices early; a read outcome that is
neither Success nor NotFound (such as 0x98 0x04 or 0x6A 0x82) contributes no
produced record but the walk continues with the next index — an index is
attempted exactly when it lies below the geometry/ceiling bound and no
strictly earlier index returned NotFound. -/
theorem walk_membership_amended (readRec : Nat → List Nat × Nat × Nat)
    (numRecords ceiling j : Nat) :
    j ∈ (recordWalk readRec numRecords ceiling).1 ↔
      1 ≤ j ∧ j < min (numRecords + 1) ceiling ∧
        ∀ k, 1 ≤ k → k < j →
          ¬((readRec k).2.1 = 0x6A ∧ (readRec k).2.2 = 0x83) := by
  rw [recordWalk, recordWalkAux_mem]
  constructor
  · rintro ⟨a, b, c⟩
    exact ⟨a, by omega, c⟩
  · rintro ⟨a, b, c⟩
    exact ⟨a, by omega, c⟩

/-- C5: over geometry {recordLength = 4, recordCount = 10} with reads `c5re`
(indices 1..3 real data with Success, index 4 all-0xFF with Success, index 5
NotFound), the walk attempts exactly indices 1..5, produces exactly the
records of indices 1, 2 and 3, and never issues a read for index 6 or
higher. -/
theorem walk_scenario_c5 :
    recordWalk c5re 10 251 =
        ([1, 2, 3, 4, 5], [(1, [1, 1, 1, 1]), (2, [2, 2, 2, 2]), (3, [3, 3, 3, 3])])
      ∧ (recordWalk c5re 10 251).2.map Prod.fst = [1, 2, 3]
      ∧ 6 ∉ (recordWalk c5re 10 251).1 := by decide

/-- C6 counterexample: on a 9-byte buffer whose first byte is 2, the decoder
returns "234" — three digits, not two — because the first byte counts the
payload bytes it walks, not the digits it emits. -/
theorem imsi_digitcount_cx :
    decode_imsi [2, 0x21, 0x43, 0, 0, 0, 0, 0, 0] = some "234"
      ∧ ("234".length ≠ 2)
      ∧ ([2, 0x21, 0x43, 0, 0, 0, 0, 0, 0] : List Nat).headD 0 = 2 := by decide

/-- Decimal rendering of a single decimal digit is one character long. -/
theorem nibbleStr_len_one (d : Nat) (h : d ≤ 9) : (nibbleStr d).length = 1 := by
  interval_cases d <;> rfl

/-- Extending the IMSI digit loop by one byte appends that byte's digits. -/
theorem imsiChars_concat (data : List Nat) (n : Nat) :
    imsiChars data (n + 1) = imsiChars data n ++ imsiByteChars data (n + 1) := by
  have h2 : List.range' 1 (n + 1) = List.range' 1 n ++ [1 + 1 * n] := List.range'_concat 1 n
  have h3 : 1 + 1 * n = n + 1 := by omega
  rw [imsiChars, h2, h3, List.foldl_append]
  rfl

/-- Digit count of the IMSI loop: one digit from the first payload byte, two
from each further byte, when every processed nibble is a decimal digit. -/
theorem imsi_len_aux (data : List Nat) :
    ∀ n, 1 ≤ n → n < data.length →
      (∀ i ∈ List.range' 1 n,
        (data.getD i 0) &&& 0xF ≤ 9 ∧ ((data.getD i 0) >>> 4) &&& 0xF ≤ 9) →
      (imsiChars data n).length = 2 * n - 1 := by
  intro n
  induction n with
  | zero => omega
  | succ m ih =>
    intro _ hlt hnib
    by_cases hm : m = 0
    · subst hm
      have hb := hnib 1 (by simp [List.mem_range'_1])
      have h1lt : 1 < data.length := hlt
      show (imsiChars data 1).length = 1
      rw [show imsiChars data 1 = imsiByteChars data 1 from rfl]
      simp only [imsiByteChars, if_pos h1lt, if_pos rfl]
      rw [if_pos (show (data.getD 1 0 >>> 4) &&& 0xF ≠ 0xF by omega)]
      exact nibbleStr_len_one _ hb.2
    · have hm1 : 1 ≤ m := by omega
      have hmlt : m < data.length := by omega
      have hnib2 : ∀ i ∈ List.range' 1 m,
          (data.getD i 0) &&& 0xF ≤ 9 ∧ ((data.getD i 0) >>> 4) &&& 0xF ≤ 9 := by
        intro i hi
        apply hnib
        rw [List.mem_range'_1] at hi ⊢
        omega
      have hb := hnib (m + 1) (by rw [List.mem_range'_1]; omega)
      rw [imsiChars_concat, List.length_append, ih hm1 hmlt hnib2]
      have hne : m + 1 ≠ 1 := by omega
      simp only [imsiByteChars, if_pos hlt, if_neg hne]
      rw [if_pos (show (data.getD (m + 1) 0) &&& 0xF ≠ 0xF by omega),
          if_pos (show (data.getD (m + 1) 0 >>> 4) &&& 0xF ≠ 0xF by omega),
          List.length_append, nibbleStr_len_one _ hb.1, nibbleStr_len_one _ hb.2]
      omega

/-- C6 as amended: on a buffer of at least 9 bytes the decoder reads the first
byte as a count of payload bytes (not digits); it semi-octet decodes bytes
1..count — the first contributing only its high nibble, each later byte its
low then high nibble, 0xF nibbles dropped — and so returns exactly
2·count − 1 decimal digits whenever count fits the buffer and every processed
nibble is a decimal digit. -/
theorem imsi_bytecount_amended (data : List Nat) (n : Nat)
    (hn : data.headD 0 = n) (h1 : 1 ≤ n)
    (hlen : 9 ≤ data.length) (hlt : n < data.length)
    (hnib : ∀ i ∈ List.range' 1 n,
      (data.getD i 0) &&& 0xF ≤ 9 ∧ ((data.getD i 0) >>> 4) &&& 0xF ≤ 9) :
    decode_imsi data = some (String.mk (imsiChars data n))
      ∧ (String.mk (imsiChars data n)).length = 2 * n - 1 := by
  constructor
  · rw [decode_imsi, if_neg (by omega), hn]
  · show (imsiChars data n).length = 2 * n - 1
    exact imsi_len_aux data n h1 hlt hnib

/-- Witness for C6: the 9-byte buffer with count byte 8 decodes to the 15
digits "001234567890123". -/
theorem imsi_bytecount_witness :
    (([8, 0x09, 0x10, 0x32, 0x54, 0x76, 0x98, 0x10, 0x32] : List Nat).headD 0 = 8
      ∧ 1 ≤ 8
      ∧ 9 ≤ ([8, 0x09, 0x10, 0x32, 0x54, 0x76, 0x98, 0x10, 0x32] : List Nat).length
      ∧ 8 < ([8, 0x09, 0x10, 0x32, 0x54, 0x76, 0x98, 0x10, 0x32] : List Nat).length
      ∧ ∀ i ∈ List.range' 1 8,
          (([8, 0x09, 0x10, 0x32, 0x54, 0x76, 0x98, 0x10, 0x32] : List Nat).getD i 0) &&& 0xF ≤ 9
            ∧ ((([8, 0x09, 0x10, 0x32, 0x54, 0x76, 0x98, 0x10, 0x32] : List Nat).getD i 0) >>> 4) &&& 0xF ≤ 9)
    ∧ (decode_imsi [8, 0x09, 0x10, 0x32, 0x54, 0x76, 0x98, 0x10, 0x32]
        = some (String.mk (imsiChars [8, 0x09, 0x10, 0x32, 0x54, 0x76, 0x98, 0x10, 0x32] 8))
      ∧ (String.mk (imsiChars [8, 0x09, 0x10, 0x32, 0x54, 0x76, 0x98, 0x10, 0x32] 8)).length
        = 2 * 8 - 1) :=
  ⟨by decide,
    imsi_bytecount_amended [8, 0x09, 0x10, 0x32, 0x54, 0x76, 0x98, 0x10, 0x32] 8
      (by decide) (by decide) (by decide) (by decide) (by decide)⟩

/-- C7: the network-identifier decoder does skip all-0xFF triples, but the
group [0xFF, 0xFF, 0x64] — whose three country-code nibbles are all 0xF —
still yields an entry, "151515-46": the nibbles are rendered in decimal, so
the `mcc != "FFF"` rejection in the source can never match. -/
theorem plmn_allf_mcc_c7 :
    decode_plmn [0xFF, 0xFF, 0x64] = ["151515-46"]
      ∧ decode_plmn [0xFF, 0xFF, 0x64] ≠ []
      ∧ decode_plmn [0xFF, 0xFF, 0xFF] = [] := by decide

/-- Masking with 0x7F is reduction modulo 128 on byte values. -/
theorem aux_and127 : ∀ x : Fin 256, x.val &&& 127 = x.val % 128 := by decide

/-- Shifting a byte right by 7 then masking leaves its top bit. -/
theorem aux_shr7 : ∀ x : Fin 256, (x.val >>> 7) &&& 127 = x.val / 128 := by decide

/-- Shifting a byte left by 1 then masking keeps its low 6 bits, doubled. -/
theorem aux_shl1 : ∀ y : Fin 256, (y.val <<< 1) &&& 127 = 2 * (y.val % 64) := by decide

/-- Bitwise or of a bit with an even number below 128 is their sum. -/
theorem aux_or : ∀ a : Fin 2, ∀ c : Fin 64, a.val ||| (2 * c.val) = a.val + 2 * c.val := by decide

/-- C8: the packed 7-bit decoder decodes the 1-byte buffer [0x31] requesting
one character to exactly the table entry at index 0x31 &&& 0x7F, the ASCII
digit 1; and for every 2-character request over two bytes the second
character combines the remaining top bit of the first byte (its low-order
bit) with the six low bits of the second byte (its high-order bits), i.e. the
table index is b0 / 128 + 2 · (b1 % 64). -/
theorem gsm7_unpack_c8 :
    (decode_gsm7 [0x31] 1 = String.mk [gsm7Basic.getD (0x31 &&& 0x7F) '?']
      ∧ gsm7Basic.getD (0x31 &&& 0x7F) '?' = '1'
      ∧ decode_gsm7 [0x31] 1 = "1")
    ∧ ∀ b0 b1 : Fin 256,
        decode_gsm7 [b0.val, b1.val] 2 =
          String.mk [gsm7Basic.getD (b0.val &&& 0x7F) '?',
                     gsm7Basic.getD (b0.val / 128 + 2 * (b1.val % 64)) '?'] := by
  refine ⟨by decide, ?_⟩
  intro b0 b1
  have key : decode_gsm7 [b0.val, b1.val] 2 = String.mk
      [if ((b0.val >>> 0) &&& 127) < gsm7Basic.length then
          gsm7Basic.getD ((b0.val >>> 0) &&& 127) '?' else '?',
       if (((b0.val >>> 7) &&& 127) ||| ((b1.val <<< 1) &&& 127)) < gsm7Basic.length then
          gsm7Basic.getD (((b0.val >>> 7) &&& 127) ||| ((b1.val <<< 1) &&& 127)) '?'
        else '?'] := rfl
  have hlen : gsm7Basic.length = 128 := by decide
  have hx0 : (b0.val >>> 0) &&& 127 = b0.val &&& 0x7F := by rw [Nat.shiftRight_zero]
  have hd : b0.val / 128 < 2 := by have := b0.isLt; omega
  have hm : b1.val % 64 < 64 := Nat.mod_lt _ (by norm_num)
  have hcv : ((b0.val >>> 7) &&& 127) ||| ((b1.val <<< 1) &&& 127)
      = b0.val / 128 + 2 * (b1.val % 64) := by
    rw [aux_shr7 b0, aux_shl1 b1]
    exact aux_or ⟨b0.val / 128, hd⟩ ⟨b1.val % 64, hm⟩
  have hlt0 : b0.val &&& 0x7F < gsm7Basic.length := by
    rw [hlen, aux_and127 b0]
    exact Nat.mod_lt _ (by norm_num)
  have hlt1 : b0.val / 128 + 2 * (b1.val % 64) < gsm7Basic.length := by
    rw [hlen]
    omega
  rw [key, hx0, hcv, if_pos hlt0, if_pos hlt1]

/-- C9 counterexample: the byte 0xAB has no 0xF nibble, yet its nibbles 11 and
10 render as the two-character runs "11" and "10", so the digit string is
"1110" and re-encoding it under the same nibble order gives [0x11, 0x01], not
the original buffer. -/
theorem semi_octet_roundtrip_cx :
    (0xAB &&& 0xF ≠ 0xF ∧ (0xAB >>> 4) &&& 0xF ≠ 0xF)
      ∧ decode_iccid [0xAB] = "1110"
      ∧ encodeSemiOctets (decode_iccid [0xAB]).toList = [0x11, 0x01]
      ∧ [0x11, 0x01] ≠ [0xAB] := by decide

/-- Rendering of a decimal digit and the value its character recovers. -/
theorem nib_digit : ∀ d : Fin 10,
    nibbleStr d.val = [Char.ofNat (48 + d.val)]
      ∧ (Char.ofNat (48 + d.val)).toNat - 48 = d.val := by decide

/-- Recomposing a byte below 256 from its masked high and low nibbles. -/
theorem byte_recompose : ∀ b : Fin 256,
    ((b.val >>> 4) &&& 0xF) * 16 + (b.val &&& 0xF) = b.val := by decide

/-- C9 as amended: for every buffer of bytes below 256 whose nibbles are all
decimal digits (at most 9, hence in particular never the 0xF filler),
decoding with the shared semi-octet routine and re-encoding the resulting
digit string under the same nibble order reproduces the buffer exactly; for
nibble values 10..14 the decimal rendering spans two characters and the
round trip fails. -/
theorem semi_octet_roundtrip_amended (data : List Nat)
    (h : ∀ b ∈ data, b < 256 ∧ b &&& 0xF ≤ 9 ∧ (b >>> 4) &&& 0xF ≤ 9) :
    encodeSemiOctets (decode_iccid data).toList = data := by
  show encodeSemiOctets (iccidChars data) = data
  induction data with
  | nil => rfl
  | cons b rest ih =>
    obtain ⟨hb, hlow, hhigh⟩ := h b (List.mem_cons_self b rest)
    have hrest := ih (fun x hx => h x (List.mem_cons_of_mem b hx))
    have hlowne : b &&& 0xF ≠ 0xF := by omega
    have hhighne : (b >>> 4) &&& 0xF ≠ 0xF := by omega
    have e1 := nib_digit ⟨b &&& 0xF, by omega⟩
    have e2 := nib_digit ⟨(b >>> 4) &&& 0xF, by omega⟩
    simp only at e1 e2
    rw [show iccidChars (b :: rest)
        = (if b &&& 0xF ≠ 0xF then nibbleStr (b &&& 0xF) else [])
          ++ ((if (b >>> 4) &&& 0xF ≠ 0xF then nibbleStr ((b >>> 4) &&& 0xF) else [])
          ++ iccidChars rest) from rfl]
    rw [if_pos hlowne, if_pos hhighne, e1.1, e2.1]
    show encodeSemiOctets (Char.ofNat (48 + (b &&& 0xF))
        :: Char.ofNat (48 + ((b >>> 4) &&& 0xF)) :: iccidChars rest) = b :: rest
    rw [show encodeSemiOctets (Char.ofNat (48 + (b &&& 0xF))
          :: Char.ofNat (48 + ((b >>> 4) &&& 0xF)) :: iccidChars rest)
        = (((Char.ofNat (48 + ((b >>> 4) &&& 0xF))).toNat - 48) * 16
            + ((Char.ofNat (48 + (b &&& 0xF))).toNat - 48))
          :: encodeSemiOctets (iccidChars rest) from rfl]
    rw [e1.2, e2.2, hrest]
    have hrec := byte_recompose ⟨b, hb⟩
    simp only at hrec
    rw [hrec]

/-- Witness for C9: the buffer [0x21, 0x43] decodes to "1234" and re-encodes
to itself. -/
theorem semi_octet_roundtrip_witness :
    (∀ b ∈ ([0x21, 0x43] : List Nat), b < 256 ∧ b &&& 0xF ≤ 9 ∧ (b >>> 4) &&& 0xF ≤ 9)
      ∧ encodeSemiOctets (decode_iccid [0x21, 0x43]).toList = [0x21, 0x43] :=
  ⟨by decide, semi_octet_roundtrip_amended [0x21, 0x43] (by decide)⟩

/-- C10: the phone-number decoder shared by the contact, fixed-dialing,
service-dialing, last-dialed and SMS address paths maps the nibble values
0xA, 0xB, 0xC, 0xD, 0xE to the characters *, #, p, w, + respectively, keeps
decimal nibbles as digits, and drops only the 0xF filler — shown for every
byte in a one-byte number field, and on a buffer exercising all five special
nibbles at once, which decodes to "*#pw+". -/
theorem bcd_digit_map_c10 :
    (∀ b : Fin 256,
      decode_bcd_number [2, 0x81, b.val] true =
        (let m : Nat → List Char := fun n =>
          if n = 0xF then []
          else [if n = 0xA then '*' else if n = 0xB then '#' else if n = 0xC then 'p'
                else if n = 0xD then 'w' else if n = 0xE then '+' else Char.ofNat (48 + n)]
         let cs := m (b.val &&& 0xF) ++ m ((b.val >>> 4) &&& 0xF)
         if cs = [] then none else some (String.mk cs)))
    ∧ decode_bcd_number [0x04, 0x81, 0xBA, 0xDC, 0xFE] true = some "*#pw+" := by
  constructor
  · decide
  · decide
